import Mathlib

/-!
# Verification of the model-price repository

A shallow embedding of the model-price application's data model and
operations, with theorems settling the specification's claims against it.

Numbers (TypeScript `number`, Python `float`) are embedded as exact
rationals `ℚ`; `T | null` is embedded as `Option`; optional record fields
(`field?: T`) as a further `Option` layer.

The frontend sources (`frontend/src/config/visualization.ts`,
`frontend/src/config/providers.ts`, `frontend/src/types/pricing.ts`,
`frontend/src/components/ModelCard.tsx`,
`frontend/src/components/CapabilityBadge.tsx`,
`frontend/src/components/FilterBar.tsx`) are embedded directly from the
code. The Python backend (providers, normalizer, override merge, sync
orchestrator) is described only by the repository's READMEs and design
documents, not present as code; those parts are modelled from the spec and
are marked as such in their doc comments.
-/

namespace ModelPrice

/-- The two price-bar kinds of `visualization.ts` (`'input' | 'output'`). -/
inductive BarType
  | input
  | output
deriving DecidableEq

/-- The constant `PRICE_BAR_SCALE` from `frontend/src/config/visualization.ts`:
maximum price values used for scaling price bars. -/
structure PriceBarScale where
  inputMax : ℚ
  outputMax : ℚ

def PRICE_BAR_SCALE : PriceBarScale := ⟨20, 80⟩

/-- The function `calculatePriceBarWidth` from `frontend/src/config/visualization.ts`:
`if (price === null || price <= 0) return 0;` then
`min((price / max) * 100, 100)` with `max` selected by the bar type. -/
def calculatePriceBarWidth (price : Option ℚ) (ty : BarType) : ℚ :=
  match price with
  | none => 0
  | some p =>
    if p ≤ 0 then 0
    else
      let mx := match ty with
        | .input => PRICE_BAR_SCALE.inputMax
        | .output => PRICE_BAR_SCALE.outputMax
      min (p / mx * 100) 100

/-- JavaScript `p || 0` on a `number | null` value: `null` and `0` are
falsy, every other number is truthy. -/
def jsOrZero (p : Option ℚ) : ℚ :=
  match p with
  | none => 0
  | some v => if v = 0 then 0 else v

/-- The inline input-bar width in `ModelCard.tsx`:
`Math.min(((model.pricing.input || 0) / 20) * 100, 100)`. -/
def modelCardInputBarWidth (p : Option ℚ) : ℚ :=
  min (jsOrZero p / 20 * 100) 100

/-- The inline output-bar width in `ModelCard.tsx`:
`Math.min(((model.pricing.output || 0) / 80) * 100, 100)`. -/
def modelCardOutputBarWidth (p : Option ℚ) : ℚ :=
  min (jsOrZero p / 80 * 100) 100

/-- Two-digit zero-padded rendering of a natural number below 100,
as produced for the fraction part of JavaScript `toFixed(2)`. -/
def pad2 (n : ℕ) : String :=
  String.mk [Char.ofNat (48 + n / 10 % 10), Char.ofNat (48 + n % 10)]

/-- Decimal rendering of a nonnegative amount of cents as `d*.dd`. -/
def toFixed2Nat (cents : ℕ) : String :=
  toString (cents / 100) ++ "." ++ pad2 (cents % 100)

/-- JavaScript `q.toFixed(2)` on an exact rational: round to the nearest
hundredth (half away from zero on nonnegative input) and render with
exactly two fraction digits. -/
def jsToFixed2 (q : ℚ) : String :=
  let cents : ℤ := ⌊q * 100 + 1 / 2⌋
  if cents < 0 then "-" ++ toFixed2Nat (-cents).toNat else toFixed2Nat cents.toNat

/-- The function `formatPrice` from `frontend/src/components/ModelCard.tsx`:
`null ↦ '-'`, `0 ↦ 'Free'`, otherwise `'$' + price.toFixed(2)`. -/
def formatPrice (price : Option ℚ) : String :=
  match price with
  | none => "-"
  | some p => if p = 0 then "Free" else "$" ++ jsToFixed2 p

/-- The `Pricing` interface of `frontend/src/types/pricing.ts`: nine
fields, each `number | null`. -/
structure Pricing where
  input : Option ℚ
  output : Option ℚ
  cached_input : Option ℚ
  cached_write : Option ℚ
  reasoning : Option ℚ
  image_input : Option ℚ
  audio_input : Option ℚ
  audio_output : Option ℚ
  embedding : Option ℚ
deriving DecidableEq

/-- The field names of the `Pricing` interface, in declaration order,
as written in `frontend/src/types/pricing.ts`. -/
def pricingFields : List String :=
  ["input", "output", "cached_input", "cached_write", "reasoning",
   "image_input", "audio_input", "audio_output", "embedding"]

/-- The pricing field names the specification claims (§3 Data Model):
`input`, `output`, `cached_input`, `cached_write`, `reasoning_output`,
`embedding`. Stated from the spec's words, for comparison with
`pricingFields` taken from the source. -/
def claimedPricingFields : List String :=
  ["input", "output", "cached_input", "cached_write", "reasoning_output", "embedding"]

/-- Field access on `Pricing` by field name: `some` of the field's value
for each declared field name, `none` for any other name. -/
def Pricing.get (p : Pricing) (field : String) : Option (Option ℚ) :=
  if field = "input" then some p.input
  else if field = "output" then some p.output
  else if field = "cached_input" then some p.cached_input
  else if field = "cached_write" then some p.cached_write
  else if field = "reasoning" then some p.reasoning
  else if field = "image_input" then some p.image_input
  else if field = "audio_input" then some p.audio_input
  else if field = "audio_output" then some p.audio_output
  else if field = "embedding" then some p.embedding
  else none

/-- The `PricingUpdate` interface of `frontend/src/types/pricing.ts`:
optional patch fields (`field?: number | null`; the outer `Option` is
"field set in the patch", the inner one is the `null`ability). -/
structure PricingUpdate where
  input : Option (Option ℚ)
  output : Option (Option ℚ)
  cached_input : Option (Option ℚ)
deriving DecidableEq

/-- The `ModelUpdate` interface of `frontend/src/types/pricing.ts`: the
partial patch sent by the UI through `apply_override`. -/
structure ModelUpdate where
  context_length : Option (Option ℕ)
  max_output_tokens : Option (Option ℕ)
  is_open_source : Option (Option Bool)
  pricing : Option PricingUpdate
  capabilities : Option (List String)
deriving DecidableEq

/-- The `hasChanges` test inside `handleClose`
(`frontend/src/components/CapabilityBadge.tsx`):
`selectedCaps.length !== capabilities.length ||
!selectedCaps.every(cap => capabilities.includes(cap))`. -/
def hasChanges (selectedCaps capabilities : List String) : Bool :=
  decide (selectedCaps.length ≠ capabilities.length) ||
    !(selectedCaps.all fun cap => capabilities.contains cap)

/-- The `onUpdate` handler wired to `EditableCapabilityList` in
`FilterBar.tsx`'s model table: the update body is `{ capabilities: newCaps }`,
every other patch field absent. -/
def capabilityUpdate (newCaps : List String) : ModelUpdate :=
  ⟨none, none, none, none, some newCaps⟩

/-- The function `handleClose` of `CapabilityBadge.tsx` composed with that handler:
when `hasChanges`, the complete edited list is sent as the update;
otherwise no update is sent. -/
def handleClose (selectedCaps capabilities : List String) : Option ModelUpdate :=
  if hasChanges selectedCaps capabilities then some (capabilityUpdate selectedCaps) else none

/-- A value of the `Stats` record: `number` or `string`. -/
inductive StatsValue
  | num (q : ℚ)
  | str (s : String)
deriving DecidableEq

/-- The `Stats` interface of `frontend/src/types/pricing.ts`: the shape of
the `stats()` response consumed by the frontend. -/
structure Stats where
  total_models : ℚ
  providers : ℚ
  avg_input_price : ℚ
  avg_output_price : ℚ
  last_refresh : String
deriving DecidableEq

/-- The field names of the `Stats` interface, in declaration order, as
written in `frontend/src/types/pricing.ts`. -/
def statsFields : List String :=
  ["total_models", "providers", "avg_input_price", "avg_output_price", "last_refresh"]

/-- The stats field names the specification claims (§6 External
Interfaces): `total_models`, `provider_count`, `avg_input_price`,
`avg_output_price`, `last_refresh`. Stated from the spec's words, for
comparison with `statsFields` taken from the source. -/
def claimedStatsFields : List String :=
  ["total_models", "provider_count", "avg_input_price", "avg_output_price", "last_refresh"]

/-- Field access on `Stats` by field name. -/
def Stats.get (st : Stats) (field : String) : Option StatsValue :=
  if field = "total_models" then some (.num st.total_models)
  else if field = "providers" then some (.num st.providers)
  else if field = "avg_input_price" then some (.num st.avg_input_price)
  else if field = "avg_output_price" then some (.num st.avg_output_price)
  else if field = "last_refresh" then some (.str st.last_refresh)
  else none

/-- The `source` classification of a record (spec §3): how it was
obtained. -/
inductive Source
  | api
  | scraper
  | static
  | manual
deriving DecidableEq

/-- The `BatchPricing` interface of `frontend/src/types/pricing.ts`. -/
structure BatchPricing where
  input : Option ℚ
  output : Option ℚ
deriving DecidableEq

/-- The `ModelPricing` interface of `frontend/src/types/pricing.ts`: the
canonical model record served by the backend and consumed by the UI.
Token counts are embedded as `ℕ` (spec §3: optional non-negative
integers). -/
structure ModelPricing where
  id : String
  provider : String
  model_id : String
  model_name : String
  pricing : Pricing
  batch_pricing : Option BatchPricing
  context_length : Option ℕ
  max_output_tokens : Option ℕ
  is_open_source : Option Bool
  capabilities : List String
  input_modalities : List String
  output_modalities : List String
  last_updated : String
deriving DecidableEq

/-- Modelled from the spec: the backend normalizer's source-native price
unit (§4.2); the Python `services`/`providers` code is not under `src/`,
only its READMEs. OpenRouter-style sources price per token, Azure-style
per 1K tokens; the canonical unit is per million tokens. -/
inductive PriceUnit
  | perToken
  | per1K
  | perMillion
deriving DecidableEq

/-- Modelled from the spec: the source-specific conversion factor to the
canonical per-million-tokens unit (§4.2; `README.md` lines 137 and 160:
per-token prices multiply by 1,000,000, per-1K prices by 1,000). -/
def conversionFactor : PriceUnit → ℚ
  | .perToken => 1000000
  | .per1K => 1000
  | .perMillion => 1

/-- Modelled from the spec: normalization of one raw price to the
canonical per-million-tokens unit. -/
def normalizePrice (u : PriceUnit) (raw : ℚ) : ℚ := raw * conversionFactor u

/-- Modelled from the spec: a raw record as returned by a provider
adapter, priced in source-native units (§4.1, §4.2). -/
structure RawRecord where
  native_id : String
  name : String
  input_price : Option ℚ
  output_price : Option ℚ
deriving DecidableEq

/-- Modelled from the spec: the normalizer's per-record transformation
(§4.2, §8): canonical id composed as `provider_id:native_id`, prices
converted to per-million-tokens. -/
def normalizeRecord (provider_id : String) (u : PriceUnit) (r : RawRecord) : ModelPricing :=
  ⟨provider_id ++ ":" ++ r.native_id, provider_id, r.native_id, r.name,
   ⟨r.input_price.map (normalizePrice u), r.output_price.map (normalizePrice u),
    none, none, none, none, none, none, none⟩,
   none, none, none, none, [], [], [], ""⟩

/-- Modelled from the spec: apply an override's pricing patch on top of
freshly normalized pricing (§4.3): the override wins on every pricing
field it sets; unset fields fall through. The patchable pricing fields
are those of the UI's `PricingUpdate`. -/
def applyPricingUpdate (p : Pricing) (u : Option PricingUpdate) : Pricing :=
  match u with
  | none => p
  | some pu =>
      ⟨pu.input.getD p.input, pu.output.getD p.output, pu.cached_input.getD p.cached_input,
       p.cached_write, p.reasoning, p.image_input, p.audio_input, p.audio_output, p.embedding⟩

/-- Modelled from the spec: the Override Merge Engine's per-model patch
application (§4.3): the override wins on every field it sets, unset
override fields fall through to the freshly fetched value; the capability
list is replaced wholesale (§9). -/
def applyOverride (m : ModelPricing) (o : ModelUpdate) : ModelPricing :=
  ⟨m.id, m.provider, m.model_id, m.model_name,
   applyPricingUpdate m.pricing o.pricing,
   m.batch_pricing,
   o.context_length.getD m.context_length,
   o.max_output_tokens.getD m.max_output_tokens,
   o.is_open_source.getD m.is_open_source,
   o.capabilities.getD m.capabilities,
   m.input_modalities, m.output_modalities, m.last_updated⟩

/-- The persisted override store, keyed by model id (spec §3, §6). -/
abbrev OverrideStore := List (String × ModelUpdate)

/-- Look up the override for a model id. -/
def lookupOverride (overrides : OverrideStore) (id : String) : Option ModelUpdate :=
  (overrides.find? fun e => decide (e.1 = id)).map Prod.snd

/-- Modelled from the spec: `merge(normalized_models, overrides)` (§4.3):
strictly a post-processing step on the models present in the current
batch. -/
def mergeOverrides (models : List ModelPricing) (overrides : OverrideStore) :
    List ModelPricing :=
  models.map fun m =>
    match lookupOverride overrides m.id with
    | some o => applyOverride m o
    | none => m

/-- Modelled from the spec: normalize a provider's fetched batch and
re-apply the persisted overrides (§4.4 step 3). -/
def syncProviderModels (provider_id : String) (u : PriceUnit) (raws : List RawRecord)
    (overrides : OverrideStore) : List ModelPricing :=
  mergeOverrides (raws.map (normalizeRecord provider_id u)) overrides

/-- The record `FetchError` (spec §4.1): provider, cause, retryability. -/
structure FetchError where
  provider_id : String
  cause : String
  retryable : Bool
deriving DecidableEq

/-- The record `SyncResult` (spec §3): one audit record per provider per sync. -/
structure SyncResult where
  provider_id : String
  success : Bool
  models_count : ℕ
  error : Option String
deriving DecidableEq

/-- Modelled from the spec: a registered provider together with its
adapter's deterministic fetch outcome (§4.1, §4.4; adapters are pure
producers of raw records, so one invocation is one outcome). -/
structure ProviderEntry where
  id : String
  unit : PriceUnit
  fetch : Except FetchError (List RawRecord)

/-- The Pricing Store's per-provider committed model sets. -/
abbrev Store := List (String × List ModelPricing)

/-- Modelled from the spec: `replace_provider_models` (§4.5): replace the
provider's previous model set wholesale. -/
def replaceProviderModels (store : Store) (pid : String) (models : List ModelPricing) :
    Store :=
  store.filter (fun e => decide (e.1 ≠ pid)) ++ [(pid, models)]

/-- The models currently committed for a provider (empty if never
synced). -/
def storeGet (store : Store) (pid : String) : List ModelPricing :=
  ((store.find? fun e => decide (e.1 = pid)).map Prod.snd).getD []

/-- Modelled from the spec: `sync_provider` (§4.4): on fetch success,
normalize, merge overrides and commit; on fetch failure, leave the
provider's persisted models untouched and record a failed `SyncResult`. -/
def syncProvider (overrides : OverrideStore) (store : Store) (p : ProviderEntry) :
    SyncResult × Store :=
  match p.fetch with
  | .error e => (⟨p.id, false, 0, some e.cause⟩, store)
  | .ok raws =>
      let models := syncProviderModels p.id p.unit raws overrides
      (⟨p.id, true, models.length, none⟩, replaceProviderModels store p.id models)

/-- The `SyncResult` a provider's sync produces — a function of that
provider and the override store alone. -/
def syncResultOf (overrides : OverrideStore) (p : ProviderEntry) : SyncResult :=
  (syncProvider overrides [] p).1

/-- Modelled from the spec: `sync_all` (§4.4): every registered provider
is attempted; a failing fetch is converted to a failed `SyncResult` at the
orchestrator boundary and never aborts the remaining providers. -/
def sync_all (providers : List ProviderEntry) (overrides : OverrideStore) (store : Store) :
    List SyncResult × Store :=
  match providers with
  | [] => ([], store)
  | p :: rest =>
      let step := syncProvider overrides store p
      let rest_out := sync_all rest overrides step.2
      (step.1 :: rest_out.1, rest_out.2)

/-- Modelled from the spec: the scraper adapter's fetch (§4.1): the live
page extraction outcome if it succeeded; on extraction failure, the
bundled static snapshot instead of a failure. Totality of the return type
embeds "extraction failure never propagates as a FetchError". The
classification is `scraper` only for a live extraction. -/
def scraperFetch (live : Except String (List RawRecord)) (snapshot : List RawRecord) :
    List RawRecord × Source :=
  match live with
  | .ok recs => (recs, Source.scraper)
  | .error _ => (snapshot, Source.static)

/-- The scale denominator picked by `calculatePriceBarWidth` for each
type. -/
def barMax (ty : BarType) : ℚ :=
  match ty with
  | .input => PRICE_BAR_SCALE.inputMax
  | .output => PRICE_BAR_SCALE.outputMax

/-- Helper: a string starting with `$` is neither `-` nor `Free`. -/
theorem dollar_append_ne (s : String) : ("$" ++ s) ≠ "-" ∧ ("$" ++ s) ≠ "Free" := by
  constructor <;> intro h <;>
    · have hd := congrArg String.data h
      simp [String.data_append] at hd

/-- Helper: decimal digit characters are digits. -/
theorem digit_isDigit : ∀ x < 10, (Char.ofNat (48 + x)).isDigit := by decide

theorem barMax_pos (ty : BarType) : 0 < barMax ty := by
  cases ty <;> norm_num [barMax, PRICE_BAR_SCALE]

theorem calculatePriceBarWidth_none (ty : BarType) :
    calculatePriceBarWidth none ty = 0 := rfl

theorem calculatePriceBarWidth_some (p : ℚ) (ty : BarType) :
    calculatePriceBarWidth (some p) ty =
      if p ≤ 0 then 0 else min (p / barMax ty * 100) 100 := by
  cases ty <;> rfl

/-- C9: `calculatePriceBarWidth` is total and bounded: it always returns a
value in `[0, 100]`; it returns `0` exactly when the price is null or
`≤ 0`, and otherwise returns `min ((price / max) * 100) 100` where `max`
is `20` for input bars and `80` for output bars. -/
theorem calculatePriceBarWidth_spec (price : Option ℚ) (ty : BarType) :
    0 ≤ calculatePriceBarWidth price ty ∧ calculatePriceBarWidth price ty ≤ 100 ∧
    (calculatePriceBarWidth price ty = 0 ↔ price = none ∨ ∃ p, price = some p ∧ p ≤ 0) ∧
    (∀ p, price = some p → 0 < p → ty = BarType.input →
        calculatePriceBarWidth price ty = min (p / 20 * 100) 100) ∧
    (∀ p, price = some p → 0 < p → ty = BarType.output →
        calculatePriceBarWidth price ty = min (p / 80 * 100) 100) := by
  cases price with
  | none =>
    refine ⟨le_refl 0, by norm_num [calculatePriceBarWidth_none], by simp [calculatePriceBarWidth_none], ?_, ?_⟩ <;>
      · intro q hq _ _
        exact absurd hq (by simp)
  | some p =>
    by_cases hp : p ≤ 0
    · rw [calculatePriceBarWidth_some, if_pos hp]
      refine ⟨le_refl 0, by norm_num, ?_, ?_, ?_⟩
      · exact ⟨fun _ => Or.inr ⟨p, rfl, hp⟩, fun _ => rfl⟩
      all_goals
        intro q hq hq0 _
        rw [Option.some.injEq] at hq
        subst hq
        exact absurd hq0 (not_lt.mpr hp)
    · have hp0 : 0 < p := not_le.mp hp
      rw [calculatePriceBarWidth_some, if_neg hp]
      have hb := barMax_pos ty
      have hmainpos : (0:ℚ) < p / barMax ty * 100 := by positivity
      have hpos : 0 < min (p / barMax ty * 100) 100 := lt_min hmainpos (by norm_num)
      refine ⟨le_of_lt hpos, min_le_right _ _, ?_, ?_, ?_⟩
      · constructor
        · intro h
          exact absurd h (ne_of_gt hpos)
        · rintro (h | ⟨q, hq, hq0⟩)
          · exact absurd h (by simp)
          · rw [Option.some.injEq] at hq
            subst hq
            exact absurd hq0 hp
      all_goals
        intro q hq _ hty
        rw [Option.some.injEq] at hq
        subst hq
        subst hty
        rfl

/-- Witness for C9 at the concrete price `5` and type `input`. -/
theorem calculatePriceBarWidth_spec_witness :
    calculatePriceBarWidth (some 5) BarType.input = min ((5:ℚ) / 20 * 100) 100 :=
  (calculatePriceBarWidth_spec (some 5) BarType.input).2.2.2.1 5 rfl (by norm_num) rfl

/-- C10: for every pricing value that is null or non-negative, the inline
price-bar width computation in `ModelCard.tsx` agrees with the shared
`calculatePriceBarWidth` of `visualization.ts`, for both bar types. -/
theorem modelCard_bar_width_eq_calculate (p : Option ℚ)
    (hp : p = none ∨ ∃ v, p = some v ∧ 0 ≤ v) :
    modelCardInputBarWidth p = calculatePriceBarWidth p BarType.input ∧
    modelCardOutputBarWidth p = calculatePriceBarWidth p BarType.output := by
  rcases hp with rfl | ⟨v, rfl, hv⟩
  · constructor <;>
      simp [modelCardInputBarWidth, modelCardOutputBarWidth, jsOrZero, calculatePriceBarWidth]
  · rcases eq_or_lt_of_le hv with h0 | h0
    · subst h0
      constructor <;>
        simp [modelCardInputBarWidth, modelCardOutputBarWidth, jsOrZero, calculatePriceBarWidth]
    · have hne : v ≠ 0 := ne_of_gt h0
      have hnle : ¬ v ≤ 0 := not_le.mpr h0
      constructor <;>
        simp [modelCardInputBarWidth, modelCardOutputBarWidth, jsOrZero, calculatePriceBarWidth,
          hne, hnle, PRICE_BAR_SCALE]

/-- Witness for C10 at the concrete price `2`. -/
theorem modelCard_bar_width_eq_calculate_witness :
    modelCardInputBarWidth (some 2) = calculatePriceBarWidth (some 2) BarType.input :=
  (modelCard_bar_width_eq_calculate (some 2) (Or.inr ⟨2, rfl, by norm_num⟩)).1

/-- C7: `formatPrice` keeps null distinct from zero: it returns `-`
exactly when the price is null, `Free` exactly when the price is `0`, and
for every positive price a `$`-prefixed string with exactly two fraction
digits. -/
theorem formatPrice_null_zero_distinct (price : Option ℚ) :
    (formatPrice price = "-" ↔ price = none) ∧
    (formatPrice price = "Free" ↔ price = some 0) ∧
    (∀ p, price = some p → 0 < p →
      formatPrice price = "$" ++ jsToFixed2 p ∧
      ∃ intPart d₁ d₂,
        formatPrice price = "$" ++ intPart ++ "." ++ String.mk [d₁, d₂] ∧
        d₁.isDigit ∧ d₂.isDigit) := by
  cases price with
  | none =>
    refine ⟨by simp [formatPrice], ?_, ?_⟩
    · simp only [formatPrice]
      constructor
      · intro h
        exact absurd (congrArg String.data h) (by decide)
      · intro h
        exact absurd h (by simp)
    · intro p hp
      exact absurd hp (by simp)
  | some p =>
    by_cases h0 : p = 0
    · subst h0
      refine ⟨?_, by simp [formatPrice], ?_⟩
      · simp only [formatPrice, if_pos rfl]
        constructor
        · intro h
          exact absurd (congrArg String.data h) (by decide)
        · intro h
          exact absurd h (by simp)
      · intro q hq hq0
        rw [Option.some.injEq] at hq
        subst hq
        exact absurd hq0 (by norm_num)
    · have hform : formatPrice (some p) = "$" ++ jsToFixed2 p := by
        simp [formatPrice, h0]
      refine ⟨?_, ?_, ?_⟩
      · rw [hform]
        constructor
        · intro h
          exact absurd h (dollar_append_ne _).1
        · intro h
          exact absurd h (by simp)
      · rw [hform]
        constructor
        · intro h
          exact absurd h (dollar_append_ne _).2
        · intro h
          rw [Option.some.injEq] at h
          exact absurd h h0
      · intro q hq hqpos
        rw [Option.some.injEq] at hq
        subst hq
        refine ⟨hform, ?_⟩
        have hcents : (0:ℤ) ≤ ⌊p * 100 + 1 / 2⌋ := by
          rw [Int.le_floor]
          push_cast
          nlinarith
        have hfix : jsToFixed2 p = toFixed2Nat (⌊p * 100 + 1 / 2⌋).toNat := by
          simp only [jsToFixed2]
          rw [if_neg (not_lt.mpr hcents)]
        refine ⟨toString ((⌊p * 100 + 1 / 2⌋).toNat / 100),
          Char.ofNat (48 + (⌊p * 100 + 1 / 2⌋).toNat % 100 / 10 % 10),
          Char.ofNat (48 + (⌊p * 100 + 1 / 2⌋).toNat % 100 % 10), ?_, ?_, ?_⟩
        · rw [hform, hfix]
          simp only [toFixed2Nat, pad2]
          simp [String.append_assoc]
        · exact digit_isDigit _ (Nat.lt_of_lt_of_le (Nat.mod_lt _ (by norm_num)) (by norm_num))
        · exact digit_isDigit _ (Nat.mod_lt _ (by norm_num))

/-- Witness for C7 at the concrete price `3/2`. -/
theorem formatPrice_null_zero_distinct_witness :
    formatPrice (some (3/2)) = "$" ++ jsToFixed2 (3/2) :=
  ((formatPrice_null_zero_distinct (some (3/2))).2.2 (3/2) rfl (by norm_num)).1

/-- C5 counterexample: the source's `Pricing` field list is not the
claimed list — the code names the field `reasoning` (not
`reasoning_output`) and additionally declares `image_input`,
`audio_input` and `audio_output`. -/
theorem pricingFields_ne_claimed : pricingFields ≠ claimedPricingFields := by decide

/-- C5 (amended): a `Pricing` record consists of exactly the fields
`input`, `output`, `cached_input`, `cached_write`, `reasoning`,
`image_input`, `audio_input`, `audio_output`, `embedding`, each an
optional (`number | null`) value: named access succeeds exactly on those
names, and the record is determined by its values at those names. -/
theorem pricing_fields_exact :
    (∀ (p : Pricing) (f : String), (Pricing.get p f).isSome = true ↔ f ∈ pricingFields) ∧
    (∀ p q : Pricing, (∀ f ∈ pricingFields, Pricing.get p f = Pricing.get q f) → p = q) := by
  constructor
  · intro p f
    simp only [Pricing.get, pricingFields]
    split_ifs with h1 h2 h3 h4 h5 h6 h7 h8 h9 <;> simp_all
  · intro p q h
    have h1 := h "input" (by simp [pricingFields])
    have h2 := h "output" (by simp [pricingFields])
    have h3 := h "cached_input" (by simp [pricingFields])
    have h4 := h "cached_write" (by simp [pricingFields])
    have h5 := h "reasoning" (by simp [pricingFields])
    have h6 := h "image_input" (by simp [pricingFields])
    have h7 := h "audio_input" (by simp [pricingFields])
    have h8 := h "audio_output" (by simp [pricingFields])
    have h9 := h "embedding" (by simp [pricingFields])
    simp only [Pricing.get] at h1 h2 h3 h4 h5 h6 h7 h8 h9
    cases p
    cases q
    simp_all

/-- Witness for C5's amended theorem at a concrete record and field. -/
theorem pricing_fields_exact_witness :
    (Pricing.get ⟨some 1, none, none, none, none, none, none, none, none⟩ "input").isSome = true :=
  (pricing_fields_exact.1 ⟨some 1, none, none, none, none, none, none, none, none⟩ "input").2
    (by decide)

/-- C6 counterexample: the source's `Stats` field list is not the claimed
list — the code names the provider-count field `providers`, not
`provider_count`. -/
theorem statsFields_ne_claimed : statsFields ≠ claimedStatsFields := by decide

/-- C6 (amended): a `Stats` record consists of exactly the fields
`total_models`, `providers`, `avg_input_price`, `avg_output_price`,
`last_refresh`: named access succeeds exactly on those names, and the
record is determined by its values at those names. -/
theorem stats_fields_exact :
    (∀ (st : Stats) (f : String), (Stats.get st f).isSome = true ↔ f ∈ statsFields) ∧
    (∀ s t : Stats, (∀ f ∈ statsFields, Stats.get s f = Stats.get t f) → s = t) := by
  constructor
  · intro st f
    simp only [Stats.get, statsFields]
    split_ifs with h1 h2 h3 h4 h5 <;> simp_all
  · intro s t h
    have h1 := h "total_models" (by simp [statsFields])
    have h2 := h "providers" (by simp [statsFields])
    have h3 := h "avg_input_price" (by simp [statsFields])
    have h4 := h "avg_output_price" (by simp [statsFields])
    have h5 := h "last_refresh" (by simp [statsFields])
    simp only [Stats.get] at h1 h2 h3 h4 h5
    cases s
    cases t
    simp_all

/-- Witness for C6's amended theorem at a concrete record and field. -/
theorem stats_fields_exact_witness :
    (Stats.get ⟨10, 3, 1, 2, "2024"⟩ "providers").isSome = true :=
  (stats_fields_exact.1 ⟨10, 3, 1, 2, "2024"⟩ "providers").2 (by decide)

/-- Helper for C8: on duplicate-free lists, `hasChanges` is false exactly
when the selected and current capability lists are equal as sets. -/
theorem hasChanges_eq_false_iff (sel caps : List String)
    (hsel : sel.Nodup) (hcaps : caps.Nodup) :
    hasChanges sel caps = false ↔ sel.toFinset = caps.toFinset := by
  have hcard_sel := List.toFinset_card_of_nodup hsel
  have hcard_caps := List.toFinset_card_of_nodup hcaps
  simp only [hasChanges, Bool.or_eq_false_iff, decide_eq_false_iff_not, not_not,
    Bool.not_eq_false', List.all_eq_true]
  constructor
  · rintro ⟨hlen, hsub⟩
    have hss : sel.toFinset ⊆ caps.toFinset := by
      intro x hx
      rw [List.mem_toFinset] at hx ⊢
      exact List.elem_iff.mp (hsub x hx)
    refine Finset.eq_of_subset_of_card_le hss ?_
    rw [hcard_sel, hcard_caps, hlen]
  · intro heq
    constructor
    · rw [← hcard_sel, ← hcard_caps, heq]
    · intro x hx
      refine List.elem_iff.mpr ?_
      rw [← List.mem_toFinset, ← heq, List.mem_toFinset]
      exact hx

/-- C8: when the capability editor closes, any update sent carries the
complete edited capability list as a full replacement (and no other patch
field), and an update is sent exactly when the edited set differs from the
current capability set (lists taken duplicate-free, as produced by the
toggle UI). -/
theorem capability_override_full_replacement (sel caps : List String)
    (hsel : sel.Nodup) (hcaps : caps.Nodup) :
    (∀ u, handleClose sel caps = some u →
        u.capabilities = some sel ∧ u = capabilityUpdate sel) ∧
    ((handleClose sel caps).isSome = true ↔ sel.toFinset ≠ caps.toFinset) := by
  constructor
  · intro u hu
    simp only [handleClose] at hu
    by_cases h : hasChanges sel caps = true
    · rw [if_pos h, Option.some.injEq] at hu
      subst hu
      exact ⟨rfl, rfl⟩
    · rw [if_neg h] at hu
      exact absurd hu (by simp)
  · have hiff := hasChanges_eq_false_iff sel caps hsel hcaps
    cases hch : hasChanges sel caps with
    | false =>
      have heq : sel.toFinset = caps.toFinset := hiff.mp hch
      simp [handleClose, hch, heq]
    | true =>
      have hne : sel.toFinset ≠ caps.toFinset := by
        intro heq
        have hc := hiff.mpr heq
        rw [hch] at hc
        exact absurd hc (by decide)
      simp [handleClose, hch, hne]

/-- Witness for C8: editing `["text"]` into `["text", "vision"]` sends the
full list `["text", "vision"]`. -/
theorem capability_override_full_replacement_witness :
    (capabilityUpdate ["text", "vision"]).capabilities = some ["text", "vision"] ∧
    (handleClose ["text", "vision"] ["text"]).isSome = true := by
  have h := capability_override_full_replacement ["text", "vision"] ["text"]
    (by decide) (by decide)
  exact ⟨(h.1 (capabilityUpdate ["text", "vision"]) rfl).1, h.2.mpr (by decide)⟩

/-- C2: unit conversion at normalization: a per-token source's prices are
multiplied by 1,000,000 and a per-1K source's prices by 1,000; in
particular `0.000002` per token normalizes to exactly `2` per million
tokens and `1.50` per 1K tokens to exactly `1500` per million tokens. -/
theorem unit_conversion_spec :
    (∀ (pid : String) (r : RawRecord),
        (normalizeRecord pid PriceUnit.perToken r).pricing.input =
          r.input_price.map (· * 1000000) ∧
        (normalizeRecord pid PriceUnit.perToken r).pricing.output =
          r.output_price.map (· * 1000000)) ∧
    (∀ (pid : String) (r : RawRecord),
        (normalizeRecord pid PriceUnit.per1K r).pricing.input =
          r.input_price.map (· * 1000) ∧
        (normalizeRecord pid PriceUnit.per1K r).pricing.output =
          r.output_price.map (· * 1000)) ∧
    normalizePrice PriceUnit.perToken (2 / 1000000) = 2 ∧
    normalizePrice PriceUnit.per1K (3 / 2) = 1500 := by
  refine ⟨fun pid r => ⟨rfl, rfl⟩, fun pid r => ⟨rfl, rfl⟩, ?_, ?_⟩ <;>
    norm_num [normalizePrice, conversionFactor]

/-- C4: scraper fallback: when live extraction fails the adapter returns
the bundled static snapshot (it never fails), and the returned records are
classified `scraper` exactly when live extraction succeeded. -/
theorem scraper_fallback_spec (live : Except String (List RawRecord))
    (snapshot : List RawRecord) :
    (∀ msg, live = Except.error msg → scraperFetch live snapshot = (snapshot, Source.static)) ∧
    ((scraperFetch live snapshot).2 = Source.scraper ↔ ∃ recs, live = Except.ok recs) := by
  cases live with
  | error msg =>
    refine ⟨fun _ _ => rfl, ?_⟩
    simp [scraperFetch]
  | ok recs =>
    refine ⟨?_, ?_⟩
    · intro msg h
      exact absurd h (by simp)
    · simp [scraperFetch]

/-- Witness for C4: a failing extraction at a concrete snapshot returns
the snapshot classified as static. -/
theorem scraper_fallback_spec_witness :
    scraperFetch (Except.error "extraction failed") [⟨"m", "M", some 1, none⟩] =
      ([⟨"m", "M", some 1, none⟩], Source.static) :=
  (scraper_fallback_spec (Except.error "extraction failed") [⟨"m", "M", some 1, none⟩]).1
    "extraction failed" rfl

/-- C1: override durability: for every raw record in a provider's fetched
batch whose normalized id has a persisted override, the resynced output
contains the freshly normalized model with the override patch applied:
every field the override sets carries the override's value, and every
field the override leaves unset carries the freshly normalized value. -/
theorem override_durability (pid : String) (u : PriceUnit) (raws : List RawRecord)
    (overrides : OverrideStore) (r : RawRecord) (hr : r ∈ raws) (o : ModelUpdate)
    (ho : lookupOverride overrides (pid ++ ":" ++ r.native_id) = some o) :
    ∃ m ∈ syncProviderModels pid u raws overrides,
      m = applyOverride (normalizeRecord pid u r) o ∧
      (∀ v, o.context_length = some v → m.context_length = v) ∧
      (∀ v, o.max_output_tokens = some v → m.max_output_tokens = v) ∧
      (∀ v, o.is_open_source = some v → m.is_open_source = v) ∧
      (∀ v, o.capabilities = some v → m.capabilities = v) ∧
      (∀ pu v, o.pricing = some pu → pu.input = some v → m.pricing.input = v) ∧
      (∀ pu v, o.pricing = some pu → pu.output = some v → m.pricing.output = v) ∧
      (∀ pu v, o.pricing = some pu → pu.cached_input = some v → m.pricing.cached_input = v) ∧
      (o.context_length = none →
        m.context_length = (normalizeRecord pid u r).context_length) ∧
      (o.max_output_tokens = none →
        m.max_output_tokens = (normalizeRecord pid u r).max_output_tokens) ∧
      (o.is_open_source = none →
        m.is_open_source = (normalizeRecord pid u r).is_open_source) ∧
      (o.capabilities = none →
        m.capabilities = (normalizeRecord pid u r).capabilities) ∧
      (o.pricing = none → m.pricing = (normalizeRecord pid u r).pricing) ∧
      (∀ pu, o.pricing = some pu → pu.input = none →
        m.pricing.input = (normalizeRecord pid u r).pricing.input) ∧
      (∀ pu, o.pricing = some pu → pu.output = none →
        m.pricing.output = (normalizeRecord pid u r).pricing.output) ∧
      (∀ pu, o.pricing = some pu → pu.cached_input = none →
        m.pricing.cached_input = (normalizeRecord pid u r).pricing.cached_input) := by
  have ho' : lookupOverride overrides (normalizeRecord pid u r).id = some o := ho
  refine ⟨applyOverride (normalizeRecord pid u r) o, ?_, rfl,
    ?_, ?_, ?_, ?_, ?_, ?_, ?_, ?_, ?_, ?_, ?_, ?_, ?_, ?_, ?_⟩
  · simp only [syncProviderModels, mergeOverrides]
    refine List.mem_map.mpr ⟨normalizeRecord pid u r, List.mem_map_of_mem _ hr, ?_⟩
    rw [ho']
  all_goals
    intros
    simp_all [applyOverride, applyPricingUpdate]

/-- Witness for C1: the spec's end-to-end scenario (§8): provider `acme`
returns `gpt-x` at `1.0`/`2.0` per 1K tokens; an override pins
`pricing.input` to `500`; after resync the committed model carries input
`500` and the fresh output `2000`. -/
theorem override_durability_witness :
    ∃ m ∈ syncProviderModels "acme" PriceUnit.per1K [⟨"gpt-x", "GPT X", some 1, some 2⟩]
        [("acme:gpt-x", ⟨none, none, none, some ⟨some (some 500), none, none⟩, none⟩)],
      m.pricing.input = some 500 ∧ m.pricing.output = some 2000 := by
  obtain ⟨m, hmem, hmeq, hrest⟩ :=
    override_durability "acme" PriceUnit.per1K [⟨"gpt-x", "GPT X", some 1, some 2⟩]
      [("acme:gpt-x", ⟨none, none, none, some ⟨some (some 500), none, none⟩, none⟩)]
      ⟨"gpt-x", "GPT X", some 1, some 2⟩ (List.mem_singleton.mpr rfl)
      ⟨none, none, none, some ⟨some (some 500), none, none⟩, none⟩ rfl
  refine ⟨m, hmem, ?_, ?_⟩
  · exact hrest.2.2.2.2.1 ⟨some (some 500), none, none⟩ (some 500) rfl rfl
  · rw [hrest.2.2.2.2.2.2.2.2.2.2.2.2.2.1 ⟨some (some 500), none, none⟩ rfl rfl]
    norm_num [normalizeRecord, normalizePrice, conversionFactor]

/-- Helper: a provider's `SyncResult` does not depend on the store it is
run against. -/
theorem syncProvider_fst (overrides : OverrideStore) (store : Store) (p : ProviderEntry) :
    (syncProvider overrides store p).1 = syncResultOf overrides p := by
  cases hf : p.fetch <;> simp [syncProvider, syncResultOf, hf]

/-- Helper: `sync_all` returns one `SyncResult` per attempted provider,
each computed from that provider alone. -/
theorem sync_all_results (providers : List ProviderEntry) (overrides : OverrideStore)
    (store : Store) :
    (sync_all providers overrides store).1 = providers.map (syncResultOf overrides) := by
  induction providers generalizing store with
  | nil => rfl
  | cons p rest ih => simp [sync_all, syncProvider_fst, ih]

/-- Helper: dropping the entries of a key other than `pid` does not change
the first entry found for `pid`. -/
theorem find?_key_filter (store : Store) (pid q : String) (hne : q ≠ pid) :
    (store.filter fun e => !decide (e.1 = q)).find? (fun e => decide (e.1 = pid)) =
      store.find? fun e => decide (e.1 = pid) := by
  induction store with
  | nil => rfl
  | cons e rest ih =>
    by_cases h : e.1 = q
    · have hP : decide (e.1 = pid) = false := by
        have : e.1 ≠ pid := by
          rw [h]
          exact hne
        simp [this]
      have hc : (!decide (e.1 = q)) = false := by simp [h]
      rw [List.filter_cons, if_neg (by simp [hc]), ih, List.find?_cons, hP]
    · have hc : (!decide (e.1 = q)) = true := by simp [h]
      by_cases h2 : e.1 = pid
      · have hd : decide (e.1 = pid) = true := by simp [h2]
        rw [List.filter_cons, if_pos hc, List.find?_cons, hd, List.find?_cons, hd]
      · have hd : decide (e.1 = pid) = false := by simp [h2]
        rw [List.filter_cons, if_pos hc, List.find?_cons, hd, List.find?_cons, hd, ih]

/-- Helper: committing one provider's batch installs exactly that batch
for that provider. -/
theorem storeGet_replace_self (store : Store) (pid : String) (ms : List ModelPricing) :
    storeGet (replaceProviderModels store pid ms) pid = ms := by
  have hnone : (store.filter fun e => !decide (e.1 = pid)).find?
      (fun e => decide (e.1 = pid)) = none := by
    refine List.find?_eq_none.mpr ?_
    intro x hx
    have := (List.mem_filter.mp hx).2
    simpa using this
  simp [storeGet, replaceProviderModels, List.find?_append, hnone, List.find?_cons]

/-- Helper: committing one provider's batch leaves every other provider's
committed models unchanged. -/
theorem storeGet_replace_ne (store : Store) (pid q : String) (ms : List ModelPricing)
    (hne : q ≠ pid) :
    storeGet (replaceProviderModels store q ms) pid = storeGet store pid := by
  simp [storeGet, replaceProviderModels, List.find?_append, find?_key_filter store pid q hne,
    List.find?_cons, hne]

/-- Helper: syncing providers that do not include `pid` leaves `pid`'s
committed models unchanged. -/
theorem sync_all_storeGet_of_ne (providers : List ProviderEntry)
    (overrides : OverrideStore) (store : Store) (pid : String)
    (h : ∀ p ∈ providers, p.id ≠ pid) :
    storeGet (sync_all providers overrides store).2 pid = storeGet store pid := by
  induction providers generalizing store with
  | nil => rfl
  | cons q rest ih =>
    have hq : q.id ≠ pid := h q (List.mem_cons_self q rest)
    have hrest : ∀ p ∈ rest, p.id ≠ pid := fun p hp => h p (List.mem_cons_of_mem q hp)
    cases hf : q.fetch with
    | error e =>
      simp only [sync_all, syncProvider, hf]
      exact ih store hrest
    | ok raws =>
      simp only [sync_all, syncProvider, hf]
      rw [ih _ hrest]
      exact storeGet_replace_ne store pid q.id _ hq

/-- Helper: after a full sync over duplicate-free provider ids, a
provider whose fetch succeeded has its merged batch committed. -/
theorem sync_all_storeGet_ok (providers : List ProviderEntry) (overrides : OverrideStore)
    (p : ProviderEntry) (raws : List RawRecord) (hf : p.fetch = Except.ok raws) :
    ∀ store : Store, (providers.map ProviderEntry.id).Nodup → p ∈ providers →
      storeGet (sync_all providers overrides store).2 p.id =
        syncProviderModels p.id p.unit raws overrides := by
  induction providers with
  | nil =>
    intro store _ hp
    exact absurd hp (by simp)
  | cons q rest ih =>
    intro store hnd hp
    have hnd' : (rest.map ProviderEntry.id).Nodup := (List.nodup_cons.mp hnd).2
    rcases List.mem_cons.mp hp with rfl | hp'
    · have hqrest : ∀ x ∈ rest, x.id ≠ p.id := by
        intro x hx hxe
        have hmem : p.id ∈ rest.map ProviderEntry.id := by
          rw [← hxe]
          exact List.mem_map_of_mem _ hx
        exact (List.nodup_cons.mp hnd).1 hmem
      simp only [sync_all, syncProvider, hf]
      rw [sync_all_storeGet_of_ne rest overrides _ p.id hqrest]
      exact storeGet_replace_self store p.id _
    · cases hqf : q.fetch with
      | error e =>
        simp only [sync_all, syncProvider, hqf]
        exact ih store hnd' hp'
      | ok qraws =>
        simp only [sync_all, syncProvider, hqf]
        exact ih _ hnd' hp'

/-- Helper: after a full sync over duplicate-free provider ids, a
provider whose fetch failed keeps its previously committed models. -/
theorem sync_all_storeGet_err (providers : List ProviderEntry) (overrides : OverrideStore)
    (p : ProviderEntry) (e : FetchError) (hf : p.fetch = Except.error e) :
    ∀ store : Store, (providers.map ProviderEntry.id).Nodup → p ∈ providers →
      storeGet (sync_all providers overrides store).2 p.id = storeGet store p.id := by
  induction providers with
  | nil =>
    intro store _ hp
    exact absurd hp (by simp)
  | cons q rest ih =>
    intro store hnd hp
    have hnd' : (rest.map ProviderEntry.id).Nodup := (List.nodup_cons.mp hnd).2
    rcases List.mem_cons.mp hp with rfl | hp'
    · have hqrest : ∀ x ∈ rest, x.id ≠ p.id := by
        intro x hx hxe
        have hmem : p.id ∈ rest.map ProviderEntry.id := by
          rw [← hxe]
          exact List.mem_map_of_mem _ hx
        exact (List.nodup_cons.mp hnd).1 hmem
      simp only [sync_all, syncProvider, hf]
      exact sync_all_storeGet_of_ne rest overrides store p.id hqrest
    · have hpq : q.id ≠ p.id := by
        intro hqe
        have hmem : q.id ∈ rest.map ProviderEntry.id := by
          rw [hqe]
          exact List.mem_map_of_mem _ hp'
        exact (List.nodup_cons.mp hnd).1 hmem
      cases hqf : q.fetch with
      | error e2 =>
        simp only [sync_all, syncProvider, hqf]
        exact ih store hnd' hp'
      | ok qraws =>
        simp only [sync_all, syncProvider, hqf]
        rw [ih _ hnd' hp']
        exact storeGet_replace_ne store p.id q.id _ hpq

/-- C3: failure isolation in `sync_all`: one `SyncResult` per attempted
provider, each computed from that provider alone (so a failing sibling
never aborts or alters another provider's sync); a provider whose fetch
succeeded reports success and has its merged models committed; a provider
whose fetch failed reports the failure and leaves its previously committed
models untouched. -/
theorem sync_all_isolation (providers : List ProviderEntry) (overrides : OverrideStore)
    (store : Store) (hnd : (providers.map ProviderEntry.id).Nodup) :
    ((sync_all providers overrides store).1 = providers.map (syncResultOf overrides)) ∧
    (∀ p ∈ providers, ∀ raws, p.fetch = Except.ok raws →
        (syncResultOf overrides p).success = true ∧
        (syncResultOf overrides p).models_count =
          (syncProviderModels p.id p.unit raws overrides).length ∧
        (syncResultOf overrides p).error = none ∧
        storeGet (sync_all providers overrides store).2 p.id =
          syncProviderModels p.id p.unit raws overrides) ∧
    (∀ p ∈ providers, ∀ e, p.fetch = Except.error e →
        (syncResultOf overrides p).success = false ∧
        (syncResultOf overrides p).models_count = 0 ∧
        (syncResultOf overrides p).error = some e.cause ∧
        storeGet (sync_all providers overrides store).2 p.id = storeGet store p.id) := by
  refine ⟨sync_all_results providers overrides store, ?_, ?_⟩
  · intro p hp raws hf
    refine ⟨by simp [syncResultOf, syncProvider, hf], by simp [syncResultOf, syncProvider, hf],
      by simp [syncResultOf, syncProvider, hf],
      sync_all_storeGet_ok providers overrides p raws hf store hnd hp⟩
  · intro p hp e hf
    exact ⟨by simp [syncResultOf, syncProvider, hf], by simp [syncResultOf, syncProvider, hf],
      by simp [syncResultOf, syncProvider, hf],
      sync_all_storeGet_err providers overrides p e hf store hnd hp⟩

/-- Witness for C3: three providers `a`, `b`, `c` where `b`'s adapter
deterministically raises a non-retryable error: the results are success,
failure, success in registry order, and `a`'s models are committed despite
`b` failing. -/
theorem sync_all_isolation_witness :
    ((sync_all
        [⟨"a", PriceUnit.per1K, Except.ok [⟨"m1", "M1", some 1, some 2⟩]⟩,
         ⟨"b", PriceUnit.per1K, Except.error ⟨"b", "boom", false⟩⟩,
         ⟨"c", PriceUnit.per1K, Except.ok []⟩] [] []).1.map SyncResult.success =
      [true, false, true]) ∧
    storeGet (sync_all
        [⟨"a", PriceUnit.per1K, Except.ok [⟨"m1", "M1", some 1, some 2⟩]⟩,
         ⟨"b", PriceUnit.per1K, Except.error ⟨"b", "boom", false⟩⟩,
         ⟨"c", PriceUnit.per1K, Except.ok []⟩] [] []).2 "a" =
      syncProviderModels "a" PriceUnit.per1K [⟨"m1", "M1", some 1, some 2⟩] [] := by
  have h := sync_all_isolation
      [⟨"a", PriceUnit.per1K, Except.ok [⟨"m1", "M1", some 1, some 2⟩]⟩,
       ⟨"b", PriceUnit.per1K, Except.error ⟨"b", "boom", false⟩⟩,
       ⟨"c", PriceUnit.per1K, Except.ok []⟩] [] [] (by decide)
  constructor
  · rw [h.1]
    rfl
  · exact (h.2.1 ⟨"a", PriceUnit.per1K, Except.ok [⟨"m1", "M1", some 1, some 2⟩]⟩
      (List.mem_cons_self _ _) [⟨"m1", "M1", some 1, some 2⟩] rfl).2.2.2

end ModelPrice
